import Mathlib

/-!
Shallow embedding of the artichat client (src/src/main.rs) for checking its
natural-language specification.  Rust strings are modelled as lists of their
UTF-8 bytes (`List Nat`, each element below 256); datagrams are byte lists.
The module `utils` is absent from the sources, so its cryptographic functions
are modelled from the specification (sections 4.1 and 4.3), as noted on each
such definition.
-/

namespace Artichat

/-- Modelled from the spec: utils.rs is missing from src/. Section 4.3 fixes
the AEAD frame layout `nonce (12 bytes) || ciphertext || tag`; the concrete
stream cipher and tag below are a stand-in for AES-256-GCM, which the spec
leaves to the library. -/
def keystream (seed i : Nat) : Nat :=
  (seed * (i + 1) + i * 97 + 131) % 256

/-- Modelled from the spec: deterministic seed mixing the 32 key bytes and the
12 nonce bytes, standing in for the AES key schedule. -/
def ksSeed (key nonce : List Nat) : Nat :=
  (key ++ nonce).foldl (fun acc b => (acc * 131 + b + 1) % 65536) 9

/-- Byte stream XOR starting at position `i`. -/
def xorStream (seed : Nat) : Nat → List Nat → List Nat
  | _, [] => []
  | i, b :: r => (b ^^^ keystream seed i) :: xorStream seed (i + 1) r

/-- Modelled from the spec: a 16-byte authentication tag over the ciphertext,
standing in for the GCM tag. -/
def mkTag (seed : Nat) (ct : List Nat) : List Nat :=
  (List.range 16).map
    (fun i => ct.foldl (fun acc b => (acc * 31 + b) % 256) ((seed + i * 97) % 256))

/-- Modelled from the spec: utils.encrypt is missing from src/. Section 4.3:
seal the plaintext under the key and a fresh 96-bit nonce and return
`nonce || ciphertext_and_tag`.  The nonce is an explicit argument here because
the Rust code draws it from OsRng. -/
def encrypt (key nonce pt : List Nat) : List Nat :=
  let s := ksSeed key nonce
  let ct := xorStream s 0 pt
  nonce ++ (ct ++ mkTag s ct)

inductive DecryptError where
  | authenticationFailed
  | malformed
  deriving DecidableEq, Repr

/-- Modelled from the spec: utils.decrypt is missing from src/. Section 4.3:
split the frame into the leading 12-byte nonce and the remaining
ciphertext+tag, open it under the key; Malformed when the frame is shorter
than the nonce, AuthenticationFailed when the tag does not verify. -/
def decrypt (key frame : List Nat) : Except DecryptError (List Nat) :=
  if frame.length < 12 then Except.error DecryptError.malformed
  else
    let nonce := frame.take 12
    let rest := frame.drop 12
    if rest.length < 16 then Except.error DecryptError.authenticationFailed
    else
      let ct := rest.take (rest.length - 16)
      let tg := rest.drop (rest.length - 16)
      if tg = mkTag (ksSeed key nonce) ct then
        Except.ok (xorStream (ksSeed key nonce) 0 ct)
      else Except.error DecryptError.authenticationFailed

/-- Modelled from the spec: utils.generate_aesgcm is missing from src/.
Section 4.1: the cipher key is the secret used directly as AEAD key material,
exactly 32 bytes of it. -/
def generate_aesgcm (roomkey : List Nat) : List Nat := roomkey.take 32

theorem take_append_self {α : Type} (xs ys : List α) :
    (xs ++ ys).take xs.length = xs := by
  induction xs with
  | nil => rfl
  | cons a r ih => simp [ih]

theorem drop_append_self {α : Type} (xs ys : List α) :
    (xs ++ ys).drop xs.length = ys := by
  induction xs with
  | nil => rfl
  | cons a r ih => simp [ih]

theorem xorStream_length (seed i : Nat) (p : List Nat) :
    (xorStream seed i p).length = p.length := by
  induction p generalizing i with
  | nil => rfl
  | cons b r ih => simp [xorStream, ih]

theorem xorStream_xorStream (seed i : Nat) (p : List Nat) :
    xorStream seed i (xorStream seed i p) = p := by
  induction p generalizing i with
  | nil => rfl
  | cons b r ih =>
      simp [xorStream, ih, Nat.xor_assoc, Nat.xor_self, Nat.xor_zero]

theorem mkTag_length (seed : Nat) (ct : List Nat) : (mkTag seed ct).length = 16 := by
  simp [mkTag]

theorem decrypt_frame (key nonce ct tg : List Nat) (hn : nonce.length = 12)
    (htg : tg.length = 16) (ht : tg = mkTag (ksSeed key nonce) ct) :
    decrypt key (nonce ++ (ct ++ tg)) =
      Except.ok (xorStream (ksSeed key nonce) 0 ct) := by
  have h1 : (nonce ++ (ct ++ tg)).take 12 = nonce := by
    rw [← hn]; exact take_append_self nonce (ct ++ tg)
  have h2 : (nonce ++ (ct ++ tg)).drop 12 = ct ++ tg := by
    rw [← hn]; exact drop_append_self nonce (ct ++ tg)
  have h3 : (ct ++ tg).length = ct.length + 16 := by simp [htg]
  have hlen : ¬ (nonce ++ (ct ++ tg)).length < 12 := by
    simp [List.length_append, hn]
  simp only [decrypt]
  rw [if_neg hlen, h1, h2, h3]
  rw [if_neg (by omega)]
  have h4 : ct.length + 16 - 16 = ct.length := by omega
  rw [h4, take_append_self ct tg, drop_append_self ct tg, if_pos ht]

theorem decrypt_encrypt (key nonce p : List Nat) (h : nonce.length = 12) :
    decrypt key (encrypt key nonce p) = Except.ok p := by
  have hd := decrypt_frame key nonce (xorStream (ksSeed key nonce) 0 p)
    (mkTag (ksSeed key nonce) (xorStream (ksSeed key nonce) 0 p)) h
    (mkTag_length _ _) rfl
  simpa [encrypt, xorStream_xorStream] using hd

/-- Continuation byte check for UTF-8 (0x80..0xBF). -/
def contByte (b : Nat) : Bool := 128 ≤ b && b ≤ 191

/-- Validity of a byte sequence as UTF-8, as checked by String::from_utf8 in
the presence branch of App::run (rejecting overlong forms, surrogates and
code points above U+10FFFF). -/
def utf8Valid : List Nat → Bool
  | [] => true
  | b :: r =>
    if b ≤ 127 then utf8Valid r
    else if 194 ≤ b && b ≤ 223 then
      match r with
      | c1 :: r1 => contByte c1 && utf8Valid r1
      | [] => false
    else if b = 224 then
      match r with
      | c1 :: c2 :: r2 => (160 ≤ c1 && c1 ≤ 191) && contByte c2 && utf8Valid r2
      | _ => false
    else if (225 ≤ b && b ≤ 236) || b = 238 || b = 239 then
      match r with
      | c1 :: c2 :: r2 => contByte c1 && contByte c2 && utf8Valid r2
      | _ => false
    else if b = 237 then
      match r with
      | c1 :: c2 :: r2 => (128 ≤ c1 && c1 ≤ 159) && contByte c2 && utf8Valid r2
      | _ => false
    else if b = 240 then
      match r with
      | c1 :: c2 :: c3 :: r3 =>
          (144 ≤ c1 && c1 ≤ 191) && contByte c2 && contByte c3 && utf8Valid r3
      | _ => false
    else if 241 ≤ b && b ≤ 243 then
      match r with
      | c1 :: c2 :: c3 :: r3 => contByte c1 && contByte c2 && contByte c3 && utf8Valid r3
      | _ => false
    else if b = 244 then
      match r with
      | c1 :: c2 :: c3 :: r3 =>
          (128 ≤ c1 && c1 ≤ 143) && contByte c2 && contByte c3 && utf8Valid r3
      | _ => false
    else false

/-- String::from_utf8 on a byte vector: the same bytes viewed as a string when
valid UTF-8 (strings are byte lists in this model), none otherwise. -/
def decodeUtf8 (bs : List Nat) : Option (List Nat) :=
  if utf8Valid bs then some bs else none

/-- str::split_once on a separator byte: the parts strictly before and after
the first occurrence, none when the separator is absent.  Byte-level split is
exact for the ASCII separator 124 because UTF-8 continuation bytes are all
at least 128. -/
def splitOnce : List Nat → Nat → Option (List Nat × List Nat)
  | [], _ => none
  | b :: r, sep =>
      if b = sep then some ([], r)
      else
        match splitOnce r sep with
        | none => none
        | some (x, y) => some (b :: x, y)

/-- A history line, keeping the textual content of the styled Line the code
builds (styling is presentation-only and out of scope). -/
inductive HistoryEntry where
  | join (name : List Nat)
  | chat (sender text : List Nat)
  deriving DecidableEq, Repr

/-- The App struct of main.rs.  The UdpSocket field is replaced by the
address it was bound to; socket effects are reported as traces. -/
structure App where
  username : List Nat
  roomkey : List Nat
  roombytes : List Nat
  roomusers : List (List Nat)
  history : List HistoryEntry
  bindAddr : String
  cipher : List Nat
  input : List Nat
  showkey : Bool
  showusers : Bool
  exit : Bool
  deriving DecidableEq, Repr

/-- A Rust panic reaching the top of the loop (an .unwrap() on Err/None). -/
inductive Panic where
  | unwrapPanic
  deriving DecidableEq, Repr

/-- A panic raised while constructing the App (the slice roomkey[..32] is out
of range for keys shorter than 32 bytes). -/
inductive CtorPanic where
  | sliceOutOfRange
  deriving DecidableEq, Repr

/-- App::create_room: the creator binds 127.0.0.1:9090; roombytes is the
32-byte slice of the room key, which panics when the key is shorter. -/
def create_room (username roomkey : List Nat) : Except CtorPanic App :=
  if 32 ≤ roomkey.length then
    Except.ok
      { username := username
        roomkey := roomkey
        roombytes := roomkey.take 32
        roomusers := []
        history := []
        bindAddr := "127.0.0.1:9090"
        cipher := generate_aesgcm roomkey
        input := []
        showkey := false
        showusers := false
        exit := false }
  else Except.error CtorPanic.sliceOutOfRange

/-- App::join_room: identical except the joiner binds the caller-supplied
port. -/
def join_room (username roomkey : List Nat) (port : String) : Except CtorPanic App :=
  if 32 ≤ roomkey.length then
    Except.ok
      { username := username
        roomkey := roomkey
        roombytes := roomkey.take 32
        roomusers := []
        history := []
        bindAddr := "127.0.0.1:" ++ port
        cipher := generate_aesgcm roomkey
        input := []
        showkey := false
        showusers := false
        exit := false }
  else Except.error CtorPanic.sliceOutOfRange

/-- A socket effect of App::run before the loop. -/
inductive SocketOp where
  | bindTo (addr : String)
  | connect (addr : String)
  | setNonblocking
  | send (data : List Nat)
  deriving DecidableEq, Repr

def SocketOp.isSend : SocketOp → Bool
  | SocketOp.send _ => true
  | _ => false

/-- Socket actions taken before entering the receive loop (main.rs lines
100-107, with the bind from the constructor): connect to the relay, go
non-blocking, send one presence datagram roombytes ++ username. -/
def App.initTrace (a : App) : List SocketOp :=
  [SocketOp.bindTo a.bindAddr, SocketOp.connect "127.0.0.1:9595",
   SocketOp.setNonblocking, SocketOp.send (a.roombytes ++ a.username)]

/-- The two datagram shapes, discriminated purely by size (spec 4.2 classify;
main.rs line 112 `if size < 12`).  The payload is the whole datagram. -/
inductive Frame where
  | presence (bytes : List Nat)
  | message (bytes : List Nat)
  deriving DecidableEq, Repr

def classify (d : List Nat) : Frame :=
  if d.length < 12 then Frame.presence d else Frame.message d

/-- Presence branch of App::run (lines 113-115): decode the whole buffer as
UTF-8 (unwrap: panic on invalid bytes), push a participant and a join line. -/
def presence_step (a : App) (buf : List Nat) : Except Panic App :=
  match decodeUtf8 buf with
  | none => Except.error Panic.unwrapPanic
  | some name =>
      Except.ok { a with
        roomusers := a.roomusers ++ [name]
        history := a.history ++ [HistoryEntry.join name] }

/-- Message branch of App::run (lines 118-120): decrypt the whole buffer
(unwrap: panic on DecryptError), split the plaintext once on the first byte
124 = the vertical bar (unwrap: panic when absent), push a chat line. -/
def message_step (a : App) (buf : List Nat) : Except Panic App :=
  match decrypt a.cipher buf with
  | Except.error _ => Except.error Panic.unwrapPanic
  | Except.ok pt =>
      match splitOnce pt 124 with
      | none => Except.error Panic.unwrapPanic
      | some (u, m) =>
          Except.ok { a with history := a.history ++ [HistoryEntry.chat u m] }

/-- The Ok branch of the receive match in App::run (lines 111-121), applied
to the `size` bytes actually read into the buffer. -/
def recvOk (a : App) (buf : List Nat) : Except Panic App :=
  if buf.length < 12 then presence_step a buf else message_step a buf

/-- The receive buffer is `[0; 1024]` (main.rs line 103). -/
def bufferSize : Nat := 1024

/-- Bytes delivered by recv_from for a datagram of arbitrary size: UDP
truncates to the buffer length, excess bytes are discarded. -/
def received (d : List Nat) : List Nat := d.take bufferSize

/-- Processing of one incoming datagram: what recv_from put in the buffer is
classified and handled by size. -/
def recvDatagram (a : App) (d : List Nat) : Except Panic App :=
  recvOk a (received d)

/-- Key codes reaching App::handle_key_event; a typed character carries the
UTF-8 bytes of the char. -/
inductive KeyCode where
  | enter
  | backspace
  | char (utf8 : List Nat)
  | fkey (n : Nat)
  | other
  deriving DecidableEq, Repr

structure KeyEvent where
  code : KeyCode
  ctrl : Bool
  deriving DecidableEq, Repr

/-- App::handle_key_event (main.rs lines 158-183).  The nonce the Enter
branch feeds to encrypt is drawn from OsRng in the code, so it is an explicit
argument here.  Returns the new state and the datagram sent, if any. -/
def handle_key_event (a : App) (e : KeyEvent) (nonce : List Nat) :
    App × Option (List Nat) :=
  if e.ctrl then
    match e.code with
    | KeyCode.char cb =>
        if cb = [99] then ({ a with exit := true }, none) else (a, none)
    | _ => (a, none)
  else
    match e.code with
    | KeyCode.fkey 1 => ({ a with showusers := !a.showusers }, none)
    | KeyCode.fkey 2 => ({ a with showkey := !a.showkey }, none)
    | KeyCode.enter =>
        ({ a with input := [] },
         some (a.roombytes ++ encrypt a.cipher nonce (a.username ++ [124] ++ a.input)))
    | KeyCode.backspace => ({ a with input := a.input.dropLast }, none)
    | KeyCode.char cb => ({ a with input := a.input ++ cb }, none)
    | _ => (a, none)

/-- The app created by create_room with username "alice" (bytes) and the
32-byte room key 0,1,...,31, used as a concrete evaluation point. -/
def appEx : App :=
  { username := [97, 108, 105, 99, 101]
    roomkey := List.range 32
    roombytes := (List.range 32).take 32
    roomusers := []
    history := []
    bindAddr := "127.0.0.1:9090"
    cipher := generate_aesgcm (List.range 32)
    input := []
    showkey := false
    showusers := false
    exit := false }

/-- The app created by join_room with the same credentials and port 9191. -/
def appExJ : App :=
  { appEx with bindAddr := "127.0.0.1:9191" }

/-- A message frame whose plaintext "hi" carries no vertical-bar separator. -/
def noSepFrame : List Nat :=
  encrypt (generate_aesgcm (List.range 32)) (List.replicate 12 0) [104, 105]

instance {ε α : Type} [DecidableEq ε] [DecidableEq α] : DecidableEq (Except ε α)
  | Except.error a, Except.error b =>
      if h : a = b then isTrue (h ▸ rfl)
      else isFalse (fun hxy => h (Except.error.inj hxy))
  | Except.error _, Except.ok _ => isFalse (fun hxy => Except.noConfusion hxy)
  | Except.ok _, Except.error _ => isFalse (fun hxy => Except.noConfusion hxy)
  | Except.ok a, Except.ok b =>
      if h : a = b then isTrue (h ▸ rfl)
      else isFalse (fun hxy => h (Except.ok.inj hxy))

/-- Claim C1: for every room key K of byte length at least 32 and every
plaintext P, decrypting the result of encrypting P under the CipherKey
derived from K returns P; the derived key is exactly 32 bytes. -/
theorem c1_encrypt_decrypt_roundtrip (K P nonce : List Nat)
    (hK : 32 ≤ K.length) (hn : nonce.length = 12) :
    (generate_aesgcm K).length = 32 ∧
    decrypt (generate_aesgcm K) (encrypt (generate_aesgcm K) nonce P) =
      Except.ok P :=
  ⟨by simp [generate_aesgcm]; omega,
   decrypt_encrypt (generate_aesgcm K) nonce P hn⟩

theorem c1_witness :
    (generate_aesgcm (List.range 32)).length = 32 ∧
    decrypt (generate_aesgcm (List.range 32))
      (encrypt (generate_aesgcm (List.range 32)) (List.replicate 12 7) [104, 105, 33]) =
      Except.ok [104, 105, 33] :=
  c1_encrypt_decrypt_roundtrip (List.range 32) [104, 105, 33] (List.replicate 12 7)
    (by decide) (by decide)

/-- Claim C2: every received datagram is classified whole, with no leading
routing-tag bytes stripped: fewer than 12 bytes is a Presence frame, 12 bytes
or more is an encrypted Message frame, and the receive step dispatches on
exactly that boundary. -/
theorem c2_classify_boundary (a : App) (d : List Nat) :
    (classify d = Frame.presence d ↔ d.length < 12) ∧
    (classify d = Frame.message d ↔ 12 ≤ d.length) ∧
    (d.length < 12 → recvOk a d = presence_step a d) ∧
    (12 ≤ d.length → recvOk a d = message_step a d) := by
  by_cases hd : d.length < 12
  · exact ⟨by simp [classify, hd], by simp [classify, hd]; try omega,
      fun _ => by simp [recvOk, hd], fun h2 => absurd h2 (by omega)⟩
  · exact ⟨by simp [classify, hd], by simp [classify, hd]; try omega,
      fun h1 => absurd h1 hd, fun _ => by simp [recvOk, hd]⟩

theorem c2_witness :
    recvOk appEx (List.replicate 11 0) = presence_step appEx (List.replicate 11 0) ∧
    recvOk appEx (List.replicate 12 0) = message_step appEx (List.replicate 12 0) :=
  ⟨(c2_classify_boundary appEx (List.replicate 11 0)).2.2.1 (by decide),
   (c2_classify_boundary appEx (List.replicate 12 0)).2.2.2 (by decide)⟩

/-- Claim C3 evidence: on a 12-byte datagram the decrypt call fails
authentication, and the receive step then panics through .unwrap()
(main.rs line 118) instead of dropping the datagram and continuing. -/
theorem c3_decrypt_failure_is_panic :
    decrypt appEx.cipher (List.replicate 12 0) =
      Except.error DecryptError.authenticationFailed ∧
    recvOk appEx (List.replicate 12 0) = Except.error Panic.unwrapPanic :=
  ⟨by decide, by decide⟩

/-- Claim C4 evidence: constructing a session from the 5-byte room key
"short" panics on the slice roomkey[..32] (main.rs lines 70 and 86) rather
than failing with a typed InvalidKeyLength error. -/
theorem c4_short_key_construction_panics :
    create_room [97, 108, 105, 99, 101] [115, 104, 111, 114, 116] =
      Except.error CtorPanic.sliceOutOfRange ∧
    join_room [97, 108, 105, 99, 101] [115, 104, 111, 114, 116] "9191" =
      Except.error CtorPanic.sliceOutOfRange :=
  ⟨by decide, by decide⟩

/-- Claim C5: for every state of the pending input, Enter composes
username ++ "|" ++ input, encrypts it under the session cipher, sends the
32-byte routing tag followed by the nonce-bearing ciphertext, and clears the
input. -/
theorem c5_enter_sends_and_clears (a : App) (nonce : List Nat)
    (h : a.roombytes.length = 32) :
    (handle_key_event a ⟨KeyCode.enter, false⟩ nonce).1 = { a with input := [] } ∧
    (handle_key_event a ⟨KeyCode.enter, false⟩ nonce).2 =
      some (a.roombytes ++ encrypt a.cipher nonce (a.username ++ [124] ++ a.input)) ∧
    (a.roombytes ++ encrypt a.cipher nonce (a.username ++ [124] ++ a.input)).take 32 =
      a.roombytes := by
  refine ⟨rfl, rfl, ?_⟩
  rw [← h]
  exact take_append_self _ _

theorem c5_witness :
    (handle_key_event appEx ⟨KeyCode.enter, false⟩ (List.replicate 12 0)).1 =
      { appEx with input := [] } ∧
    (handle_key_event appEx ⟨KeyCode.enter, false⟩ (List.replicate 12 0)).2 =
      some (appEx.roombytes ++
        encrypt appEx.cipher (List.replicate 12 0) (appEx.username ++ [124] ++ appEx.input)) ∧
    (appEx.roombytes ++
        encrypt appEx.cipher (List.replicate 12 0) (appEx.username ++ [124] ++ appEx.input)).take 32 =
      appEx.roombytes :=
  c5_enter_sends_and_clears appEx (List.replicate 12 0) (by decide)

set_option maxRecDepth 100000 in
/-- Claim C7 evidence: a well-formed message frame whose plaintext "hi"
contains no vertical bar decrypts successfully, split_once finds no
separator, and the receive step panics through .unwrap() (main.rs line 119)
instead of failing with ProtocolError::MissingSeparator and continuing. -/
theorem c7_missing_separator_is_panic :
    12 ≤ noSepFrame.length ∧
    decrypt appEx.cipher noSepFrame = Except.ok [104, 105] ∧
    splitOnce [104, 105] 124 = none ∧
    recvOk appEx noSepFrame = Except.error Panic.unwrapPanic :=
  ⟨by decide, by decide, by decide, by decide⟩

theorem handle_key_event_preserves (a : App) (e : KeyEvent) (nonce : List Nat) :
    (handle_key_event a e nonce).1.roomusers = a.roomusers ∧
    (handle_key_event a e nonce).1.history = a.history := by
  unfold handle_key_event
  split <;> split <;> first
    | (split <;> exact ⟨rfl, rfl⟩)
    | exact ⟨rfl, rfl⟩

/-- Claim C8 counterexample: the one-byte datagram 0xFF is classified as a
Presence frame but is not valid UTF-8, so String::from_utf8(..).unwrap()
(main.rs line 113) panics and nothing is appended — not every received
Presence datagram appends a Participant and a join entry. -/
theorem c8_counterexample :
    recvOk appEx [255] = Except.error Panic.unwrapPanic :=
  by decide

/-- Claim C8 (amended): every received Presence datagram whose bytes are
valid UTF-8 appends exactly one Participant and one join HistoryEntry
(invalid UTF-8 panics instead); any successful receive step only appends to
the participant list and the history, and key handling never touches them. -/
theorem c8_append_only (a : App) (d : List Nat) (e : KeyEvent) (nonce : List Nat) :
    (d.length < 12 → utf8Valid d = true →
      recvOk a d = Except.ok { a with
        roomusers := a.roomusers ++ [d],
        history := a.history ++ [HistoryEntry.join d] }) ∧
    (∀ a2, recvOk a d = Except.ok a2 →
      ∃ us hs, a2.roomusers = a.roomusers ++ us ∧ a2.history = a.history ++ hs) ∧
    (handle_key_event a e nonce).1.roomusers = a.roomusers ∧
    (handle_key_event a e nonce).1.history = a.history := by
  refine ⟨?_, ?_, (handle_key_event_preserves a e nonce).1,
    (handle_key_event_preserves a e nonce).2⟩
  · intro hd hv
    simp [recvOk, hd, presence_step, decodeUtf8, hv]
  · intro a2 h2
    unfold recvOk presence_step message_step at h2
    by_cases hd : d.length < 12
    · rw [if_pos hd] at h2
      cases hdec : decodeUtf8 d with
      | none => rw [hdec] at h2; cases h2
      | some name =>
          rw [hdec] at h2
          cases h2
          exact ⟨[name], [HistoryEntry.join name], rfl, rfl⟩
    · rw [if_neg hd] at h2
      cases hdec : decrypt a.cipher d with
      | error er => rw [hdec] at h2; cases h2
      | ok pt =>
          simp only [hdec] at h2
          cases hsp : splitOnce pt 124 with
          | none => rw [hsp] at h2; cases h2
          | some um =>
              obtain ⟨u, m⟩ := um
              rw [hsp] at h2
              cases h2
              exact ⟨[], [HistoryEntry.chat u m], by simp, rfl⟩

theorem c8_witness :
    recvOk appEx [97] = Except.ok { appEx with
      roomusers := appEx.roomusers ++ [[97]],
      history := appEx.history ++ [HistoryEntry.join [97]] } ∧
    (handle_key_event appEx ⟨KeyCode.backspace, false⟩ []).1.roomusers = appEx.roomusers :=
  ⟨(c8_append_only appEx [97] ⟨KeyCode.backspace, false⟩ []).1 (by decide) (by decide),
   (c8_append_only appEx [97] ⟨KeyCode.backspace, false⟩ []).2.2.1⟩

/-- Claim C9: the creator binds the fixed local port 9090 and the joiner the
caller-supplied port; before the loop the session connects to the relay
127.0.0.1:9595, goes non-blocking, and sends exactly one presence frame,
the 32-byte routing tag followed by the display name. -/
theorem c9_init_sequence (username roomkey : List Nat) (port : String)
    (h : 32 ≤ roomkey.length) :
    (∀ a, create_room username roomkey = Except.ok a →
      a.bindAddr = "127.0.0.1:9090" ∧ a.roombytes.length = 32 ∧
      a.initTrace = [SocketOp.bindTo "127.0.0.1:9090",
        SocketOp.connect "127.0.0.1:9595", SocketOp.setNonblocking,
        SocketOp.send (roomkey.take 32 ++ username)] ∧
      a.initTrace.filter SocketOp.isSend =
        [SocketOp.send (roomkey.take 32 ++ username)]) ∧
    (∀ a, join_room username roomkey port = Except.ok a →
      a.bindAddr = "127.0.0.1:" ++ port ∧ a.roombytes.length = 32 ∧
      a.initTrace = [SocketOp.bindTo ("127.0.0.1:" ++ port),
        SocketOp.connect "127.0.0.1:9595", SocketOp.setNonblocking,
        SocketOp.send (roomkey.take 32 ++ username)]) ∧
    (∃ a, create_room username roomkey = Except.ok a) ∧
    (∃ a, join_room username roomkey port = Except.ok a) := by
  simp only [create_room, join_room, if_pos h]
  refine ⟨?_, ?_, ⟨_, rfl⟩, ⟨_, rfl⟩⟩
  · intro a ha
    cases ha
    refine ⟨rfl, ?_, rfl, by simp [App.initTrace, List.filter, SocketOp.isSend]⟩
    rw [List.length_take]
    omega
  · intro a ha
    cases ha
    refine ⟨rfl, ?_, rfl⟩
    rw [List.length_take]
    omega

theorem c9_witness :
    appEx.bindAddr = "127.0.0.1:9090" ∧ appEx.roombytes.length = 32 ∧
    appEx.initTrace = [SocketOp.bindTo "127.0.0.1:9090",
      SocketOp.connect "127.0.0.1:9595", SocketOp.setNonblocking,
      SocketOp.send ((List.range 32).take 32 ++ [97, 108, 105, 99, 101])] ∧
    appExJ.bindAddr = "127.0.0.1:9191" :=
  ⟨((c9_init_sequence [97, 108, 105, 99, 101] (List.range 32) "9191" (by decide)).1
      appEx (by decide)).1,
   ((c9_init_sequence [97, 108, 105, 99, 101] (List.range 32) "9191" (by decide)).1
      appEx (by decide)).2.1,
   ((c9_init_sequence [97, 108, 105, 99, 101] (List.range 32) "9191" (by decide)).1
      appEx (by decide)).2.2.1,
   ((c9_init_sequence [97, 108, 105, 99, 101] (List.range 32) "9191" (by decide)).2.1
      appExJ (by decide)).1⟩

/-- Claim C10: the receive path reads a datagram into a fixed 1024-byte
buffer, so exactly the first 1024 bytes are classified and decrypted; a
datagram no longer than 1024 bytes is processed whole, and a longer one is
silently truncated to 1024 bytes. -/
theorem c10_receive_truncation (a : App) (d : List Nat) :
    recvDatagram a d = recvOk a (d.take 1024) ∧
    (received d).length = min 1024 d.length ∧
    (d.length ≤ 1024 → received d = d) ∧
    (1024 < d.length → (received d).length = 1024 ∧ received d ≠ d) := by
  refine ⟨rfl, by simp [received, bufferSize], ?_, ?_⟩
  · intro h
    simp [received, bufferSize, List.take_of_length_le h]
  · intro h
    refine ⟨by simp [received, bufferSize]; omega, ?_⟩
    intro he
    have hlen : (received d).length = d.length := by rw [he]
    simp [received, bufferSize] at hlen
    omega

theorem c10_witness :
    received (List.replicate 1025 7) ≠ List.replicate 1025 7 ∧
    (received (List.replicate 1025 7)).length = 1024 ∧
    received (List.replicate 5 7) = List.replicate 5 7 :=
  ⟨((c10_receive_truncation appEx (List.replicate 1025 7)).2.2.2
      (by rw [List.length_replicate]; omega)).2,
   ((c10_receive_truncation appEx (List.replicate 1025 7)).2.2.2
      (by rw [List.length_replicate]; omega)).1,
   (c10_receive_truncation appEx (List.replicate 5 7)).2.2.1
      (by rw [List.length_replicate]; omega)⟩

end Artichat
